import Mathlib

/-!
Verification development for the ReportGen report-generation engine
(`ReportGen.py` / `ReportGenTemp.py`).

The Python source is shallowly embedded: strings are Lean `String`s
(operated on through their `List Char` data), Excel cell values are a sum
of "string" and "non-string" values, and the generated Word document is a
list of content entries (headings, paragraphs with their runs, table
cells, page breaks, photo-grid tables).  Character-level operations model
Python's ASCII behaviour (the labels and file names involved are ASCII).
Purely presentational attributes (fonts, colours, line spacing, run
breaks) are not part of the content model.
-/

namespace ReportGen

/-- ASCII model of Python `str.lower` on a single character. -/
def pyLowerChar : Char → Char
  | 'A' => 'a' | 'B' => 'b' | 'C' => 'c' | 'D' => 'd' | 'E' => 'e'
  | 'F' => 'f' | 'G' => 'g' | 'H' => 'h' | 'I' => 'i' | 'J' => 'j'
  | 'K' => 'k' | 'L' => 'l' | 'M' => 'm' | 'N' => 'n' | 'O' => 'o'
  | 'P' => 'p' | 'Q' => 'q' | 'R' => 'r' | 'S' => 's' | 'T' => 't'
  | 'U' => 'u' | 'V' => 'v' | 'W' => 'w' | 'X' => 'x' | 'Y' => 'y'
  | 'Z' => 'z'
  | c => c

/-- ASCII model of Python `str.upper` on a single character. -/
def pyUpperChar : Char → Char
  | 'a' => 'A' | 'b' => 'B' | 'c' => 'C' | 'd' => 'D' | 'e' => 'E'
  | 'f' => 'F' | 'g' => 'G' | 'h' => 'H' | 'i' => 'I' | 'j' => 'J'
  | 'k' => 'K' | 'l' => 'L' | 'm' => 'M' | 'n' => 'N' | 'o' => 'O'
  | 'p' => 'P' | 'q' => 'Q' | 'r' => 'R' | 's' => 'S' | 't' => 'T'
  | 'u' => 'U' | 'v' => 'V' | 'w' => 'W' | 'x' => 'X' | 'y' => 'Y'
  | 'z' => 'Z'
  | c => c

/-- Python's `\s` / `str.strip` whitespace class (ASCII part). -/
def pyIsSpace (c : Char) : Bool :=
  c = ' ' || c = '\t' || c = '\n' || c = '\r' ||
  c = Char.ofNat 11 || c = Char.ofNat 12

/-- Python `str.strip()` on the character list: drop leading and trailing
whitespace. -/
def stripL (l : List Char) : List Char :=
  ((l.dropWhile pyIsSpace).reverse.dropWhile pyIsSpace).reverse

def pyStripS (s : String) : String := String.mk (stripL s.data)

def lowerS (s : String) : String := String.mk (s.data.map pyLowerChar)

def upperS (s : String) : String := String.mk (s.data.map pyUpperChar)

/-- Index of the first occurrence of `sep` in `l` (as `str.find`). -/
def findSub (sep : List Char) : List Char → Option Nat
  | [] => if sep = [] then some 0 else none
  | c :: rest =>
      if sep.isPrefixOf (c :: rest) then some 0
      else (findSub sep rest).map (· + 1)

/-- Python `str.split(sep)` for a non-empty separator, with fuel
(`fuel > length` always suffices since each found separator consumes at
least one character). -/
def pySplitAux (sep : List Char) : Nat → List Char → List (List Char)
  | 0, l => [l]
  | fuel + 1, l =>
      match findSub sep l with
      | none => [l]
      | some i => l.take i :: pySplitAux sep fuel (l.drop (i + sep.length))

def pySplitL (sep l : List Char) : List (List Char) :=
  pySplitAux sep (l.length + 1) l

def pySplitS (sep s : String) : List String :=
  (pySplitL sep.data s.data).map String.mk

/-- `sep`-intercalation of the pieces produced by a split. -/
def joinSep (sep : List Char) : List (List Char) → List Char
  | [] => []
  | [x] => x
  | x :: xs => x ++ sep ++ joinSep sep xs

-- -------------------- the label regex --------------------
-- `re.sub(r"\s*\((?:select.*|dd/mm/yyyy)\)\s*:?", "", label, flags=re.IGNORECASE)`

/-- Case-insensitive character equality, as under `re.IGNORECASE` (ASCII). -/
def ciEq (a b : Char) : Bool := pyLowerChar a = pyLowerChar b

/-- Case-insensitive literal-prefix test. -/
def ciPrefix : List Char → List Char → Bool
  | [], _ => true
  | _ :: _, [] => false
  | a :: as, b :: bs => ciEq a b && ciPrefix as bs

/-- Index of the last `')'` in `l` (used for the greedy `.*\)`). -/
def lastParenIn : List Char → Option Nat
  | [] => none
  | c :: rest =>
      match lastParenIn rest with
      | some i => some (i + 1)
      | none => if c = ')' then some 0 else none

/-- Index of the last `')'` before any newline (`.` does not match `'\n'`). -/
def lastParen (l : List Char) : Option Nat :=
  lastParenIn (l.takeWhile (fun c => c ≠ '\n'))

/-- Length consumed by the trailing `\s*:?` (greedy whitespace, then an
optional colon). -/
def tailLen (l : List Char) : Nat :=
  let w := (l.takeWhile pyIsSpace).length
  w + (if (l.drop w).head? = some ':' then 1 else 0)

/-- Length of the match of `\s*\((?:select.*|dd/mm/yyyy)\)\s*:?` anchored at
the head of `l`, if any.  The leading `\s*` is equivalently taken maximal
(backtracking it leaves a whitespace character where `'('` is required),
alternation tries `select.*` before `dd/mm/yyyy`, and the greedy `.*\)`
settles on the last `')'` of the line. -/
def matchB (w : Nat) (r1 : List Char) : Option Nat :=
  if ciPrefix "dd/mm/yyyy".data r1 then
    match r1.drop 10 with
    | ')' :: r3 => some (w + 1 + 10 + 1 + tailLen r3)
    | _ => none
  else none

def matchLen (l : List Char) : Option Nat :=
  let w := (l.takeWhile pyIsSpace).length
  match l.drop w with
  | '(' :: r1 =>
      if ciPrefix "select".data r1 then
        match lastParen (r1.drop 6) with
        | some k => some (w + 1 + 6 + k + 1 + tailLen ((r1.drop 6).drop (k + 1)))
        | none => matchB w r1
      else matchB w r1
  | _ => none

/-- Global substitution with the empty replacement: scan left to right,
delete each leftmost match, continue after it (as `re.sub`). -/
def scanSubAux : Nat → List Char → List Char
  | 0, l => l
  | _ + 1, [] => []
  | fuel + 1, c :: rest =>
      match matchLen (c :: rest) with
      | some n => scanSubAux fuel ((c :: rest).drop n)
      | none => c :: scanSubAux fuel rest

/-- `re.sub(r"\s*\((?:select.*|dd/mm/yyyy)\)\s*:?", "", s, flags=IGNORECASE)`. -/
def pySubLabel (s : String) : String :=
  String.mk (scanSubAux s.data.length s.data)

/-- `col_name`: the normalized field key (sub, then `.lower().strip()`). -/
def pyNormalize (label : String) : String :=
  pyStripS (lowerS (pySubLabel label))

/-- `display_col_name`: the display label (sub, then `.strip()`). -/
def pyDisplay (label : String) : String :=
  pyStripS (pySubLabel label)

-- -------------------- data model --------------------

/-- An Excel cell value as seen by the generator: either a Python `str`, or
a non-string scalar (`vother` carries its `str(...)` rendering).  Methods
such as `.split` exist only on strings; `str(...)` is total. -/
inductive Value
  | vstr (s : String)
  | vother (r : String)
deriving DecidableEq, Repr

/-- Python `str(v)`. -/
def pyStr : Value → String
  | .vstr s => s
  | .vother r => r

/-- Destination cell of a metadata paragraph inside the 4×1 layout table
(`nestedt.cell(0,0)`, `nestedt.cell(0,1)`, `table.cell(2,0)`,
`table.cell(3,0)`). -/
inductive Dest
  | nested00 | nested01 | row2 | row3
deriving DecidableEq, Repr

/-- One piece of generated document content.  Paragraph-like entries carry
the text of their runs in order; formatting (styles, bold, breaks) is not
modelled.  `gridTable b` is one 2×2 photo table holding image batch `b`;
`headerImage none` stands for the "[Header image not provided]" cell. -/
inductive Entry
  | heading (level : Nat) (text : String)
  | metaPara (dest : Dest) (runs : List String)
  | headerImage (img : Option String)
  | bullet (runs : List String)
  | paragraph (runs : List String)
  | pageBreak
  | gridTable (batch : List String)
deriving DecidableEq, Repr

/-- Placement category of a field (spec §3 `PlacementCategory`; the
metadata primary/secondary split is a destination detail of `Dest`). -/
inductive Category
  | metadata | reserveProducer | reserveConsumer | managerSignoff
  | narrativeSection | narrativeConclusion
deriving DecidableEq, Repr

/-- The 14 metadata keys of the first membership test
(`ReportGen.py` lines 215–216). -/
def metaKeys : List String :=
  ["policyholder", "address", "insurer", "adjuster", "description of risk",
   "claim #", "date of report", "date assigned", "date of inspection",
   "date of loss", "type of loss", "cause of loss", "assigned gc", "pm contact"]

/-- The 5 keys routed to the second metadata sub-region `nestedt.cell(0,1)`
(line 222). -/
def secondaryKeys : List String :=
  ["claim #", "date of report", "date assigned", "assigned gc", "pm contact"]

/-- The field-routing chain of `generate_docs` (lines 215–281), extracted
as the placement category it selects for a normalized key. -/
def classifyField (k : String) : Category :=
  if k ∈ metaKeys then .metadata
  else if k ∈ ["indemnity reserves:", "expense reserves:"] then
    (if k = "indemnity reserves:" then .reserveProducer else .reserveConsumer)
  else if k = "product manager" then .managerSignoff
  else if k = "conclusion" then .narrativeConclusion
  else .narrativeSection

/-- The fixed FieldKey → PlacementCategory table as the spec's §6 states
it (a lookup with a conclusion/narrative default). -/
def specClassify (k : String) : Category :=
  match k with
  | "policyholder" => .metadata
  | "address" => .metadata
  | "insurer" => .metadata
  | "adjuster" => .metadata
  | "description of risk" => .metadata
  | "claim #" => .metadata
  | "date of report" => .metadata
  | "date assigned" => .metadata
  | "date of inspection" => .metadata
  | "date of loss" => .metadata
  | "type of loss" => .metadata
  | "cause of loss" => .metadata
  | "assigned gc" => .metadata
  | "pm contact" => .metadata
  | "indemnity reserves:" => .reserveProducer
  | "expense reserves:" => .reserveConsumer
  | "product manager" => .managerSignoff
  | "conclusion" => .narrativeConclusion
  | _ => .narrativeSection

-- -------------------- field rendering --------------------

/-- Result of rendering one field: the entries it added to the document
(including those added before a mid-branch exception), the value of the
`note` variable afterwards, and the caught exception if one was raised. -/
structure FieldOut where
  entries : List Entry
  note : String
  err : Option String
deriving DecidableEq, Repr

/-- The apostrophe character (the narrative special key contains one). -/
def apos : String := String.mk [Char.ofNat 39]

/-- The designated narrative key that gets 1.5 line spacing instead of a
trailing break (line 278). -/
def spacingKey : String :=
  "recommended reserves for trinity" ++ apos ++ "s involvement:"

/-- The body of the per-field `try` of `generate_docs` (lines 214–281) for
one column.  `note` is the running NoteCarry.  Entries added before the
point of an exception are kept, exactly as the already-mutated document
keeps them in the source. -/
def renderField (colRaw : String) (v : Value) (note : String) : FieldOut :=
  let col := pyNormalize colRaw
  let display := pyDisplay colRaw
  if col ∈ metaKeys then
    let dest : Dest :=
      if col = "cause of loss" then .row3
      else if col = "description of risk" then .row2
      else if col ∈ secondaryKeys then .nested01
      else .nested00
    let valText :=
      if col = "cause of loss" ∨ col = "description of risk" then
        "\n" ++ pyStr v ++ "\n"
      else pyStr v
    ⟨[.metaPara dest [display ++ ": ", valText]], note, none⟩
  else if col ∈ ["indemnity reserves:", "expense reserves:"] then
    -- the bulleted paragraph is created first, then the value is handled
    if col = "indemnity reserves:" then
      match v with
      | .vstr s =>
          let temp := pySplitS "HST" s
          if 2 ≤ temp.length then
            ⟨[.bullet [display ++ " ", temp.getD 0 "" ++ "HST"]],
             temp.getD 1 "", none⟩
          else
            ⟨[.bullet [display ++ " "]], note,
             some "list index out of range"⟩
      | .vother _ =>
          ⟨[.bullet [display ++ " "]], note, some "no attribute split"⟩
    else
      ⟨[.bullet [display ++ " ", pyStr v, "\nNote: " ++ pyStripS note]],
       note, none⟩
  else if col = "product manager" then
    match v with
    | .vstr s =>
        let temp := pySplitS "\n" s
        let first := temp.getD 0 ""
        ⟨[.metaPara .nested00 [display ++ ": ", first],
          .paragraph (["Thank you,", "\n" ++ first] ++
            (temp.drop 1).map (fun line => "\n" ++ line))], note, none⟩
    | .vother _ => ⟨[], note, some "no attribute split"⟩
  else if col = "conclusion" then
    ⟨[.paragraph [], .heading 2 display, .paragraph [pyStr v]], note, none⟩
  else
    ⟨[.heading 2 display, .paragraph [pyStr v]], note, none⟩

/-- The warning logged when a field's rendering raises (line 284). -/
def fieldWarning (colRaw err : String) : String :=
  "[WARNING] Failed to insert column " ++ pyDisplay colRaw ++ ": " ++ err

/-- Result of the field loop: document entries, final NoteCarry, warnings. -/
structure FieldsOut where
  entries : List Entry
  note : String
  warns : List String
deriving DecidableEq, Repr

/-- The field iteration of `generate_docs` (lines 211–284): each field is
rendered inside a `try`; on an exception a warning is logged and the loop
continues with the next field. -/
def renderFields : List (String × Value) → String → FieldsOut
  | [], note => ⟨[], note, []⟩
  | (c, v) :: rest, note =>
      let f := renderField c v note
      let w := match f.err with
        | some e => [fieldWarning c e]
        | none => []
      let r := renderFields rest f.note
      ⟨f.entries ++ r.entries, r.note, w ++ r.warns⟩

-- -------------------- photo grid composer --------------------

/-- Batching `for i in range(0, len(image_list), 4): batch = lst[i:i+4]`
(fuel `= length` suffices: every step drops 4 ≥ 1 elements). -/
def chunks4Aux : Nat → List String → List (List String)
  | 0, _ => []
  | _ + 1, [] => []
  | fuel + 1, l@(_ :: _) => l.take 4 :: chunks4Aux fuel (l.drop 4)

def chunks4 (l : List String) : List (List String) :=
  chunks4Aux l.length l

/-- Content of grid cell `(row, col)` for a batch: the loop inserts
`batch[row*2+col]` exactly when `row*2+col < len(batch)` (lines 308–321). -/
def gridCell (batch : List String) (row col : Nat) : Option String :=
  batch.get? (row * 2 + col)

/-- The 2×2 grid tables a sub-category's image list produces (one table
per batch of 4, in order). -/
def roomGrids (imgs : List String) : List Entry :=
  (chunks4 imgs).map Entry.gridTable

/-- One sub-category section: centered upper-cased heading, then grids. -/
def roomSection (name : String) (imgs : List String) : List Entry :=
  Entry.heading 3 (upperS name) :: roomGrids imgs

/-- Sub-category sections separated by page breaks
(`if idx < len(room_image_map) - 1: doc.add_page_break()`). -/
def joinRooms : List (String × List String) → List Entry
  | [] => []
  | [kv] => roomSection kv.1 kv.2
  | kv :: rest => roomSection kv.1 kv.2 ++ Entry.pageBreak :: joinRooms rest

/-- The full photographs section (lines 287–326).  The guard is Python's
`any(room_image_map.values())`: some entry has a non-empty image list —
the "home" header entry included.  Inside, the "home" key is filtered out;
if nothing remains the placeholder paragraph is added. -/
def photoSection (m : List (String × List String)) : List Entry :=
  if m.any (fun kv => !kv.2.isEmpty) then
    let m' := m.filter (fun kv => lowerS kv.1 ≠ "home")
    Entry.pageBreak :: Entry.heading 1 "PHOTOGRAPHS" ::
      ((if m'.isEmpty then [Entry.paragraph ["[No photographs provided]"]]
        else []) ++ joinRooms m')
  else []

/-- The images of an ImageSet that live under a key other than
case-insensitive "home" (the notion the claims call "non-header images"). -/
def nonHeaderImages (m : List (String × List String)) : List String :=
  ((m.filter (fun kv => lowerS kv.1 ≠ "home")).map (fun kv => kv.2)).flatten

/-- The header-image slot `table.cell(1, 0)` (lines 188–207): the first
image of the case-insensitive "home" entry if present, the
"not provided" placeholder otherwise; an empty "home" list raises inside
the outer `try`, which logs a warning and leaves no content. -/
def headerImage (m : List (String × List String)) :
    List Entry × List String :=
  match m.find? (fun kv => lowerS kv.1 = "home") with
  | some kv =>
      match kv.2 with
      | img :: _ => ([Entry.headerImage (some img)], [])
      | [] => ([], ["[WARNING] Failed to load image header: list index out of range"])
  | none => ([Entry.headerImage none], [])

-- -------------------- document assembler --------------------

/-- Outcome of `generate_docs`: the returned value (`output_filename` or
`None`), the messages sent to `log_callback`, and the document content. -/
structure GenResult where
  result : Option String
  log : List String
  doc : List Entry
deriving DecidableEq, Repr

/-- `generate_docs(excel_path, room_image_map, output_filename, row_index,
log_callback)` (lines 150–333) for an already-read tabular source:
`columns` are the header labels and `data` the rows (pandas guarantees
every row has one value per column, so fields are `columns.zip row`).
`templateOk` stands for `os.path.exists(template_path)`; picture and file
writes themselves are modelled as succeeding. -/
def generate_docs (columns : List String) (data : List (List Value))
    (roomImageMap : List (String × List String)) (outputFilename : String)
    (rowIndex : Nat) (templateOk : Bool) : GenResult :=
  if data.length = 0 then
    ⟨none, ["[ERROR] Excel file contains no rows."], []⟩
  else
    let clampWarn :=
      if data.length ≤ rowIndex then
        ["[WARNING] Row index " ++ toString rowIndex ++
         " out of bounds. Using last available row."]
      else []
    let rowIndex' := if data.length ≤ rowIndex then data.length - 1 else rowIndex
    let templWarn :=
      if templateOk then []
      else ["[WARNING] Template missing or inaccessible. Using blank document."]
    let hdr := headerImage roomImageMap
    let row := data.getD rowIndex' []
    let f := renderFields (columns.zip row) ""
    ⟨some outputFilename,
     clampWarn ++ templWarn ++ hdr.2 ++ f.warns ++
       ["[SUCCESS] Document saved: " ++ outputFilename],
     Entry.heading 1 "FIRST INSPECTION REPORT" :: hdr.1 ++ f.entries ++
       photoSection roomImageMap⟩

-- -------------------- process_files --------------------

/-- The filename sanitization of `process_files` (line 484):
`"".join(c if c.isalnum() or c in " ._-" else "_" for c in name).strip()`.
`isalnum` is modelled on ASCII. -/
def sanitizeName (s : String) : String :=
  pyStripS (String.mk (s.data.map (fun c =>
    if c.isAlphanum || c = ' ' || c = '.' || c = '_' || c = '-' then c
    else '_')))

/-- `safe_name` with the ordinal fallback (lines 484–486); `i` is the
0-based claim index. -/
def safeName (claim : String) (i : Nat) : String :=
  if sanitizeName claim = "" then "claim_" ++ toString (i + 1)
  else sanitizeName claim

/-- The output path of one claim (line 488):
`os.path.join(output_folder, f"{safe_name}.docx")`. -/
def outputPathFor (folder claim : String) (i : Nat) : String :=
  folder ++ "/" ++ safeName claim i ++ ".docx"

/-- Writing a file: a later write to the same path replaces the earlier
file.  The filesystem is path → claim-index of the last writer. -/
def writeFile (fs : List (String × Nat)) (path : String) (idx : Nat) :
    List (String × Nat) :=
  if fs.any (fun e => e.1 = path) then
    fs.map (fun e => if e.1 = path then (path, idx) else e)
  else fs ++ [(path, idx)]

/-- The files left on disk after the claim loop of `process_files`
(lines 482–492) saves every claim's document. -/
def finalFiles (folder : String) (claims : List String) : List (String × Nat) :=
  (claims.enum.map (fun ci => (outputPathFor folder ci.2 ci.1, ci.1))).foldl
    (fun fs pi => writeFile fs pi.1 pi.2) []

-- -------------------- split/join lemmas --------------------

theorem findSub_some {sep : List Char} :
    ∀ {l : List Char} {i : Nat}, findSub sep l = some i →
      l = l.take i ++ sep ++ l.drop (i + sep.length) := by
  intro l
  induction l with
  | nil =>
      intro i h
      unfold findSub at h
      split at h
      · rename_i hsep
        cases h
        simp [hsep]
      · cases h
  | cons c rest ih =>
      intro i h
      unfold findSub at h
      split at h
      · rename_i hpre
        cases h
        obtain ⟨t, ht⟩ := List.isPrefixOf_iff_prefix.mp hpre
        rw [← ht]
        simp [List.drop_left]
      · rename_i hpre
        rcases Option.map_eq_some'.mp h with ⟨j, hj, hij⟩
        subst hij
        have := ih hj
        calc c :: rest = c :: (rest.take j ++ sep ++ rest.drop (j + sep.length)) := by
              rw [← this]
          _ = (c :: rest).take (j + 1) ++ sep ++ (c :: rest).drop (j + 1 + sep.length) := by
              simp [List.take_succ_cons, List.drop_succ_cons]
              rw [show j + 1 + sep.length = (j + sep.length) + 1 by omega]
              simp [List.drop_succ_cons]

theorem pySplitAux_ne_nil (sep : List Char) (fuel : Nat) (l : List Char) :
    pySplitAux sep fuel l ≠ [] := by
  cases fuel with
  | zero => simp [pySplitAux]
  | succ fuel =>
      unfold pySplitAux
      cases findSub sep l <;> simp

theorem pySplitAux_join {sep : List Char} (hsep : sep ≠ []) :
    ∀ (fuel : Nat) (l : List Char), l.length < fuel →
      joinSep sep (pySplitAux sep fuel l) = l := by
  intro fuel
  induction fuel with
  | zero => intro l h; omega
  | succ fuel ih =>
      intro l h
      cases hf : findSub sep l with
      | none =>
          have hstep : pySplitAux sep (fuel + 1) l = [l] := by
            unfold pySplitAux; rw [hf]
          rw [hstep]; simp [joinSep]
      | some i =>
          have hstep : pySplitAux sep (fuel + 1) l =
              l.take i :: pySplitAux sep fuel (l.drop (i + sep.length)) := by
            simp only [pySplitAux, hf]
          rw [hstep]
          have hdecomp := findSub_some hf
          have hsl : 0 < sep.length := List.length_pos.mpr hsep
          have hil : i + sep.length ≤ l.length := by
            have := congrArg List.length hdecomp
            simp [List.length_append] at this
            omega
          have hlen : (l.drop (i + sep.length)).length < fuel := by
            simp [List.length_drop]
            omega
          cases hrec : pySplitAux sep fuel (l.drop (i + sep.length)) with
          | nil => exact absurd hrec (pySplitAux_ne_nil sep fuel _)
          | cons r rs =>
              have hjoin := ih (l.drop (i + sep.length)) hlen
              rw [hrec] at hjoin
              calc joinSep sep (l.take i :: r :: rs)
                  = l.take i ++ sep ++ joinSep sep (r :: rs) := by
                    simp [joinSep]
                _ = l.take i ++ sep ++ l.drop (i + sep.length) := by rw [hjoin]
                _ = l := hdecomp.symm

/-- A two-piece Python split reassembles the original string around the
separator. -/
theorem pySplitS_two {sep v a b : String} (hsep : sep ≠ "")
    (h : pySplitS sep v = [a, b]) : v = a ++ sep ++ b := by
  unfold pySplitS pySplitL at h
  rcases List.map_eq_cons_iff.mp h with ⟨la, rest1, hsplit, ha, hrest1⟩
  rcases List.map_eq_cons_iff.mp hrest1 with ⟨lb, rest2, hrest, hb, hrest2⟩
  have hnil : rest2 = [] := List.map_eq_nil_iff.mp hrest2
  subst hnil
  have hsepd : sep.data ≠ [] := by
    intro hd
    exact hsep (by cases sep; simp_all)
  have hj := pySplitAux_join hsepd (v.data.length + 1) v.data (by omega)
  rw [hsplit, hrest] at hj
  have : joinSep sep.data [la, lb] = la ++ sep.data ++ lb := by
    simp [joinSep]
  rw [this] at hj
  apply String.ext
  simp [← ha, ← hb, hj.symm]

-- -------------------- claim theorems --------------------

/-- C1.  The reserve-note-producer field (key "indemnity reserves:")
splits its raw value on the literal token "HST": the bulleted producer
line carries everything up to and including "HST" and the text after
"HST" becomes the NoteCarry; for the value
"$1,000 plus HST tax included" the parts are "$1,000 plus HST" and
" tax included", and the later reserve-note-consumer render of the same
case contains the line "Note: tax included". -/
theorem reserve_producer_split_c1 :
    (∀ (c v a b note₀ : String),
        pyNormalize c = "indemnity reserves:" →
        pySplitS "HST" v = [a, b] →
        renderField c (.vstr v) note₀ =
          ⟨[.bullet [pyDisplay c ++ " ", a ++ "HST"]], b, none⟩ ∧
        v = a ++ "HST" ++ b) ∧
    pySplitS "HST" "$1,000 plus HST tax included" =
      ["$1,000 plus ", " tax included"] ∧
    Entry.bullet ["Expense Reserves: ", "$200", "\nNote: tax included"] ∈
      (generate_docs ["Indemnity Reserves:", "Expense Reserves:"]
        [[.vstr "$1,000 plus HST tax included", .vstr "$200"]]
        [] "out.docx" 0 true).doc := by
  refine ⟨?_, by decide, by decide⟩
  intro c v a b note₀ hn hs
  refine ⟨?_, pySplitS_two (by decide) hs⟩
  simp [renderField, hn, hs]
  decide

/-- Witness for C1 at the spec's concrete value. -/
theorem reserve_producer_split_c1_witness :
    renderField "Indemnity Reserves:" (.vstr "$1,000 plus HST tax included") "" =
      ⟨[.bullet ["Indemnity Reserves: ", "$1,000 plus HST"]],
       " tax included", none⟩ ∧
    "$1,000 plus HST tax included" = "$1,000 plus " ++ "HST" ++ " tax included" := by
  have h := reserve_producer_split_c1.1 "Indemnity Reserves:"
    "$1,000 plus HST tax included" "$1,000 plus " " tax included" ""
    (by decide) (by decide)
  exact ⟨by rw [h.1]; decide, h.2⟩

/-- Every level-3 heading in the room sections names one of the listed
sub-categories (upper-cased). -/
theorem joinRooms_heading :
    ∀ (l : List (String × List String)) (s : String),
      Entry.heading 3 s ∈ joinRooms l → ∃ kv ∈ l, s = upperS kv.1 := by
  intro l
  induction l with
  | nil => intro s h; simp [joinRooms] at h
  | cons kv rest ih =>
      intro s h
      cases rest with
      | nil =>
          simp only [joinRooms, roomSection, roomGrids, List.mem_cons] at h
          rcases h with h | h
          · exact ⟨kv, by simp, by injection h⟩
          · rcases List.mem_map.mp h with ⟨batch, _, hb⟩
            cases hb
      | cons kv2 rest2 =>
          simp only [joinRooms, roomSection, roomGrids] at h
          rcases List.mem_append.mp h with h | h
          · rcases List.mem_cons.mp h with h | h
            · exact ⟨kv, by simp, by injection h⟩
            · rcases List.mem_map.mp h with ⟨batch, _, hb⟩
              cases hb
          · rcases List.mem_cons.mp h with h | h
            · cases h
            · rcases ih s h with ⟨kv', hkv', hs⟩
              exact ⟨kv', by simp [hkv'], hs⟩

/-- C2 counterexample: an ImageSet holding only the header ("home") entry
has no non-header image, yet the page break and "PHOTOGRAPHS" heading are
still emitted (the guard is `any(room_image_map.values())`, which counts
the header images). -/
theorem photos_section_c2_counterexample :
    Entry.pageBreak ∈ photoSection [("home", ["h.jpg"])] ∧
    Entry.heading 1 "PHOTOGRAPHS" ∈ photoSection [("home", ["h.jpg"])] ∧
    nonHeaderImages [("home", ["h.jpg"])] = [] := by decide

/-- C2 amended.  The page break and "PHOTOGRAPHS" heading are emitted if
and only if some entry of the ImageSet — the header entry included — has a
non-empty image list; the header entry is excluded from the section body
(every room heading comes from a non-"home" entry), and when every entry
is the header the "[No photographs provided]" placeholder is emitted. -/
theorem photos_section_c2_amended :
    ∀ m : List (String × List String),
      ((Entry.pageBreak ∈ photoSection m ∧
        Entry.heading 1 "PHOTOGRAPHS" ∈ photoSection m) ↔
        m.any (fun kv => !kv.2.isEmpty) = true) ∧
      (∀ s, Entry.heading 3 s ∈ photoSection m →
        ∃ kv ∈ m, lowerS kv.1 ≠ "home" ∧ s = upperS kv.1) ∧
      (m.any (fun kv => !kv.2.isEmpty) = true →
        (∀ kv ∈ m, lowerS kv.1 = "home") →
        Entry.paragraph ["[No photographs provided]"] ∈ photoSection m) := by
  intro m
  refine ⟨⟨?_, ?_⟩, ?_, ?_⟩
  · intro h
    by_contra hany
    rw [photoSection, if_neg (by simpa using hany)] at h
    simp at h
  · intro h
    rw [photoSection, if_pos (by simpa using h)]
    simp
  · intro s h
    by_cases hany : m.any (fun kv => !kv.2.isEmpty) = true
    · rw [photoSection, if_pos (by simpa using hany)] at h
      rcases List.mem_cons.mp h with h | h
      · cases h
      rcases List.mem_cons.mp h with h | h
      · cases h
      rcases List.mem_append.mp h with h | h
      · split at h <;> simp_all
      · rcases joinRooms_heading _ s h with ⟨kv, hkv, hs⟩
        have := List.mem_filter.mp hkv
        exact ⟨kv, this.1, by simpa using this.2, hs⟩
    · rw [photoSection, if_neg (by simpa using hany)] at h
      simp at h
  · intro hany hall
    have hf : m.filter (fun kv => lowerS kv.1 ≠ "home") = [] := by
      rw [List.filter_eq_nil_iff]
      intro kv hkv
      simp [hall kv hkv]
    rw [photoSection, if_pos (by simpa using hany), hf]
    simp [joinRooms]

/-- Witness for C2's amended theorem at a header-only ImageSet. -/
theorem photos_section_c2_amended_witness :
    (Entry.pageBreak ∈ photoSection [("home", ["h.jpg"])] ∧
     Entry.heading 1 "PHOTOGRAPHS" ∈ photoSection [("home", ["h.jpg"])]) ∧
    Entry.paragraph ["[No photographs provided]"] ∈
      photoSection [("home", ["h.jpg"])] :=
  ⟨(photos_section_c2_amended [("home", ["h.jpg"])]).1.mpr (by decide),
   (photos_section_c2_amended [("home", ["h.jpg"])]).2.2 (by decide) (by decide)⟩

-- -------------------- normalization lemmas (C3) --------------------

theorem stripL_eq (l : List Char) :
    stripL l = List.rdropWhile pyIsSpace (l.dropWhile pyIsSpace) := rfl

theorem dropWhile_fix_head {p : Char → Bool} {a : Char} {x : List Char}
    (h : List.dropWhile p (a :: x) = a :: x) : p a = false := by
  by_contra hpa
  rw [List.dropWhile_cons, if_pos (by simpa using hpa)] at h
  have hlen := congrArg List.length h
  have hle : (List.dropWhile p x).length ≤ x.length :=
    (List.dropWhile_suffix p).length_le
  simp at hlen
  omega

theorem dropWhile_rdropWhile_fix {p : Char → Bool} (u : List Char)
    (hu : List.dropWhile p u = u) :
    List.dropWhile p (List.rdropWhile p u) = List.rdropWhile p u := by
  rcases hr : List.rdropWhile p u with _ | ⟨a, t⟩
  · simp
  · have hpre := List.rdropWhile_prefix p u
    rw [hr] at hpre
    rcases hpre with ⟨s, hs⟩
    have hu' : List.dropWhile p ((a :: t) ++ s) = (a :: t) ++ s := by
      rw [hs]; exact hu
    have hpa : p a = false := dropWhile_fix_head hu'
    rw [List.dropWhile_cons, if_neg (by simp [hpa])]

theorem stripL_idem (l : List Char) : stripL (stripL l) = stripL l := by
  rw [stripL_eq, stripL_eq]
  rw [dropWhile_rdropWhile_fix _ (List.dropWhile_idempotent _ _),
    List.rdropWhile_idempotent]

/-- The 26 uppercase ASCII letters (the only characters `pyLowerChar`
changes). -/
def upperChars : List Char :=
  ['A', 'B', 'C', 'D', 'E', 'F', 'G', 'H', 'I', 'J', 'K', 'L', 'M',
   'N', 'O', 'P', 'Q', 'R', 'S', 'T', 'U', 'V', 'W', 'X', 'Y', 'Z']

theorem pyLowerChar_cases (c : Char) : pyLowerChar c = c ∨ c ∈ upperChars := by
  by_cases h : c ∈ upperChars
  · exact Or.inr h
  · left
    unfold pyLowerChar
    split <;> simp_all [upperChars]

theorem pyLowerChar_idem (c : Char) :
    pyLowerChar (pyLowerChar c) = pyLowerChar c := by
  rcases pyLowerChar_cases c with h | h
  · rw [h]; exact h
  · fin_cases h <;> decide

theorem pyIsSpace_lower (c : Char) : pyIsSpace (pyLowerChar c) = pyIsSpace c := by
  rcases pyLowerChar_cases c with h | h
  · rw [h]
  · fin_cases h <;> decide

theorem stripL_map_lower (l : List Char) :
    stripL (l.map pyLowerChar) = (stripL l).map pyLowerChar := by
  have hcomp : (pyIsSpace ∘ pyLowerChar) = pyIsSpace := funext pyIsSpace_lower
  unfold stripL
  rw [List.dropWhile_map, hcomp, ← List.map_reverse, List.dropWhile_map, hcomp,
    ← List.map_reverse]

/-- C3 counterexample: `normalize` is not idempotent.  Deleting the inner
`(dd/mm/yyyy)` from `"(sel(dd/mm/yyyy)ect)"` splices the remaining text
into `"(select)"`, which a second normalization strips to `""`. -/
theorem normalize_c3_counterexample :
    pyNormalize (pyNormalize "(sel(dd/mm/yyyy)ect)") ≠
      pyNormalize "(sel(dd/mm/yyyy)ect)" ∧
    pyNormalize "(sel(dd/mm/yyyy)ect)" = "(select)" ∧
    pyNormalize (pyNormalize "(sel(dd/mm/yyyy)ect)") = "" := by decide

/-- C3 amended.  `normalize` is idempotent on every label whose normalized
form contains no further parenthetical match (the regex substitution
leaves `normalize x` unchanged); in general the substitution can splice a
new `(select...)` match together and a second application strips further,
as in the counterexample. -/
theorem normalize_c3_amended (x : String)
    (h : pySubLabel (pyNormalize x) = pyNormalize x) :
    pyNormalize (pyNormalize x) = pyNormalize x := by
  have hdata : (pyNormalize x).data =
      stripL ((pySubLabel x).data.map pyLowerChar) := rfl
  have hlow : (pyNormalize x).data.map pyLowerChar = (pyNormalize x).data := by
    rw [hdata, ← stripL_map_lower, List.map_map]
    rw [show (pyLowerChar ∘ pyLowerChar) = pyLowerChar from funext pyLowerChar_idem]
  have hstrip : stripL (pyNormalize x).data = (pyNormalize x).data := by
    rw [hdata, stripL_idem]
  show pyStripS (lowerS (pySubLabel (pyNormalize x))) = pyNormalize x
  rw [h]
  apply String.ext
  show stripL ((pyNormalize x).data.map pyLowerChar) = (pyNormalize x).data
  rw [hlow, hstrip]

/-- Witness for C3's amended theorem at an ordinary label. -/
theorem normalize_c3_amended_witness :
    pySubLabel (pyNormalize "Policyholder") = pyNormalize "Policyholder" ∧
    pyNormalize (pyNormalize "Policyholder") = pyNormalize "Policyholder" :=
  ⟨by decide, normalize_c3_amended "Policyholder" (by decide)⟩

/-- C4.  For every FieldKey the placement category selected by the
rendering chain equals the fixed table of spec §6: the fourteen metadata
keys map to the metadata block, "indemnity reserves:" to the
reserve-note producer, "expense reserves:" to the reserve-note consumer,
"product manager" to the manager signoff, the literal "conclusion" to the
narrative conclusion, and every other key to a narrative section. -/
theorem classify_table_c4 : ∀ k : String, classifyField k = specClassify k := by
  intro k
  unfold classifyField
  split_ifs with h1 h2 h3 h4 h5
  · simp [metaKeys] at h1
    rcases h1 with rfl | rfl | rfl | rfl | rfl | rfl | rfl | rfl | rfl | rfl |
      rfl | rfl | rfl | rfl <;> decide
  · subst h3; decide
  · simp at h2
    rcases h2 with rfl | rfl
    · exact absurd rfl h3
    · decide
  · subst h4; decide
  · subst h5; decide
  · unfold specClassify
    split <;> simp_all [metaKeys]

/-- C5.  With a readable tabular source: zero data rows make
`generate_docs` return `None` after logging an error; a row index at or
past the row count logs a warning, is replaced by `rowCount - 1`, and
generation proceeds with that last row (same document, non-null result). -/
theorem row_bounds_c5 :
    ∀ (columns : List String) (data : List (List Value))
      (m : List (String × List String)) (fname : String) (ri : Nat)
      (tOk : Bool),
      (data.length = 0 →
        generate_docs columns data m fname ri tOk =
          ⟨none, ["[ERROR] Excel file contains no rows."], []⟩) ∧
      (0 < data.length → data.length ≤ ri →
        (generate_docs columns data m fname ri tOk).result = some fname ∧
        "[WARNING] Row index " ++ toString ri ++
            " out of bounds. Using last available row." ∈
          (generate_docs columns data m fname ri tOk).log ∧
        (generate_docs columns data m fname ri tOk).doc =
          (generate_docs columns data m fname (data.length - 1) tOk).doc) := by
  intro columns data m fname ri tOk
  constructor
  · intro h0
    rw [generate_docs, if_pos h0]
  · intro h1 h2
    have hne : ¬ data.length = 0 := by omega
    have hlt : ¬ data.length ≤ data.length - 1 := by omega
    refine ⟨?_, ?_, ?_⟩
    · rw [generate_docs, if_neg hne]
    · rw [generate_docs, if_neg hne]
      simp [h2]
    · rw [generate_docs, if_neg hne, generate_docs, if_neg hne]
      simp [h2, hlt]

/-- Witness for C5 at a one-row source and row index 5. -/
theorem row_bounds_c5_witness :
    generate_docs ["A"] [] [] "o.docx" 0 true =
      ⟨none, ["[ERROR] Excel file contains no rows."], []⟩ ∧
    (generate_docs ["A"] [[.vstr "x"]] [] "o.docx" 5 true).result =
      some "o.docx" ∧
    "[WARNING] Row index " ++ toString 5 ++
        " out of bounds. Using last available row." ∈
      (generate_docs ["A"] [[.vstr "x"]] [] "o.docx" 5 true).log :=
  ⟨(row_bounds_c5 ["A"] [] [] "o.docx" 0 true).1 (by decide),
   ((row_bounds_c5 ["A"] [[.vstr "x"]] [] "o.docx" 5 true).2 (by decide)
     (by decide)).1,
   ((row_bounds_c5 ["A"] [[.vstr "x"]] [] "o.docx" 5 true).2 (by decide)
     (by decide)).2.1⟩

-- -------------------- photo grid lemmas (C6) --------------------

theorem chunks4Aux_length :
    ∀ (fuel : Nat) (l : List String), l.length ≤ fuel →
      (chunks4Aux fuel l).length = (l.length + 3) / 4 := by
  intro fuel
  induction fuel with
  | zero =>
      intro l h
      have hl : l = [] := List.length_eq_zero.mp (by omega)
      subst hl; simp [chunks4Aux]
  | succ fuel ih =>
      intro l h
      cases l with
      | nil => simp [chunks4Aux]
      | cons c rest =>
          have hlen : ((c :: rest).drop 4).length ≤ fuel := by
            simp only [List.length_drop, List.length_cons]
            simp only [List.length_cons] at h
            omega
          simp only [chunks4Aux, List.length_cons]
          rw [ih _ hlen]
          simp only [List.length_drop, List.length_cons]
          omega

theorem chunks4Aux_getD :
    ∀ (fuel : Nat) (l : List String) (t : Nat), l.length ≤ fuel →
      (chunks4Aux fuel l).getD t [] = (l.drop (4 * t)).take 4 := by
  intro fuel
  induction fuel with
  | zero =>
      intro l t h
      have hl : l = [] := List.length_eq_zero.mp (by omega)
      subst hl; simp [chunks4Aux]
  | succ fuel ih =>
      intro l t h
      cases l with
      | nil => simp [chunks4Aux]
      | cons c rest =>
          cases t with
          | zero => simp [chunks4Aux]
          | succ t =>
              have hlen : ((c :: rest).drop 4).length ≤ fuel := by
                simp only [List.length_drop, List.length_cons]
                simp only [List.length_cons] at h
                omega
              simp only [chunks4Aux, List.getD_cons_succ]
              rw [ih _ _ hlen, List.drop_drop]
              congr 2
              omega

/-- C6.  A sub-category with n images yields exactly ceil(n/4) 2×2 grid
tables, cell (row, col) of the t-th table holds the image at index
4·t + row·2 + col when it exists (and nothing otherwise), and 5 images
yield exactly 2 tables (4 + 1). -/
theorem photo_grid_c6 :
    (∀ imgs : List String, (roomGrids imgs).length = (imgs.length + 3) / 4) ∧
    (∀ (imgs : List String) (t r c : Nat), r < 2 → c < 2 →
        gridCell ((chunks4 imgs).getD t []) r c =
          imgs.get? (4 * t + (r * 2 + c))) ∧
    roomGrids ["i1", "i2", "i3", "i4", "i5"] =
      [Entry.gridTable ["i1", "i2", "i3", "i4"], Entry.gridTable ["i5"]] := by
  refine ⟨?_, ?_, by decide⟩
  · intro imgs
    unfold roomGrids chunks4
    rw [List.length_map]
    exact chunks4Aux_length _ _ (le_refl _)
  · intro imgs t r c hr hc
    unfold gridCell chunks4
    rw [chunks4Aux_getD _ _ _ (le_refl _)]
    have hidx : r * 2 + c < 4 := by omega
    rw [List.get?_eq_getElem?, List.get?_eq_getElem?, List.getElem?_take,
      if_pos hidx, List.getElem?_drop]

/-- Witness for C6's cell-indexing at the second table of a 5-image list. -/
theorem photo_grid_c6_witness :
    gridCell ((chunks4 ["a", "b", "c", "d", "e"]).getD 1 []) 0 0 =
      ["a", "b", "c", "d", "e"].get? (4 * 1 + (0 * 2 + 0)) :=
  photo_grid_c6.2.1 ["a", "b", "c", "d", "e"] 1 0 0 (by decide) (by decide)

-- -------------------- NoteCarry lemmas (C7) --------------------

/-- A field processes the reserve-note producer successfully (and hence
assigns the NoteCarry) exactly when its key normalizes to
"indemnity reserves:" and its string value splits on "HST" into at least
two pieces. -/
def producerSuccessB (cv : String × Value) : Bool :=
  (pyNormalize cv.1 == "indemnity reserves:") &&
    (match cv.2 with
     | .vstr s => decide (2 ≤ (pySplitS "HST" s).length)
     | .vother _ => false)

/-- A field that is not a successful producer leaves the NoteCarry
unchanged, and any consumer bullet it emits (the only 3-run bullets)
carries the note line built from the incoming NoteCarry. -/
theorem renderField_no_producer (c : String) (v : Value) (note : String)
    (h : producerSuccessB (c, v) = false) :
    (renderField c v note).note = note ∧
    ∀ runs, Entry.bullet runs ∈ (renderField c v note).entries →
      runs.length = 3 → runs.getD 2 "" = "\nNote: " ++ pyStripS note := by
  cases v with
  | vstr s =>
      simp only [producerSuccessB, Bool.and_eq_false_iff, beq_eq_false_iff_ne,
        decide_eq_false_iff_not] at h
      simp only [renderField]
      split_ifs <;> simp_all
  | vother r =>
      simp only [renderField]
      split_ifs <;> simp_all

/-- C7.  In a case whose field iteration never successfully processes a
reserve-note-producer field, the NoteCarry stays the empty string and
every reserve-note-consumer bullet's appended note run reads exactly
"\nNote: " (the line after the break is "Note: "). -/
theorem note_carry_default_c7 :
    ∀ fields : List (String × Value),
      (∀ cv ∈ fields, producerSuccessB cv = false) →
      (renderFields fields "").note = "" ∧
      ∀ runs, Entry.bullet runs ∈ (renderFields fields "").entries →
        runs.length = 3 → runs.getD 2 "" = "\nNote: " := by
  intro fields
  induction fields with
  | nil =>
      intro h
      exact ⟨rfl, by intro runs hr; simp [renderFields] at hr⟩
  | cons cv rest ih =>
      intro h
      obtain ⟨cn, vv⟩ := cv
      have hcv := h (cn, vv) (by simp)
      have hrest := ih (fun x hx => h x (by simp [hx]))
      have hf := renderField_no_producer cn vv "" hcv
      simp only [renderFields]
      rw [hf.1]
      refine ⟨hrest.1, ?_⟩
      intro runs hr hlen
      rcases List.mem_append.mp hr with hr | hr
      · have := hf.2 runs hr hlen
        rw [this]; decide
      · exact hrest.2 runs hr hlen

/-- Witness for C7 at a case with only the consumer field. -/
theorem note_carry_default_c7_witness :
    (∀ cv ∈ [("Expense Reserves:", Value.vstr "$200")],
      producerSuccessB cv = false) ∧
    (renderFields [("Expense Reserves:", Value.vstr "$200")] "").note = "" ∧
    (∀ runs, Entry.bullet runs ∈
        (renderFields [("Expense Reserves:", Value.vstr "$200")] "").entries →
      runs.length = 3 → runs.getD 2 "" = "\nNote: ") :=
  ⟨by decide,
   note_carry_default_c7 [("Expense Reserves:", Value.vstr "$200")] (by decide)⟩

-- -------------------- error recovery (C8) --------------------

theorem renderFields_append :
    ∀ (l1 l2 : List (String × Value)) (note : String),
      renderFields (l1 ++ l2) note =
        ⟨(renderFields l1 note).entries ++
           (renderFields l2 (renderFields l1 note).note).entries,
         (renderFields l2 (renderFields l1 note).note).note,
         (renderFields l1 note).warns ++
           (renderFields l2 (renderFields l1 note).note).warns⟩ := by
  intro l1
  induction l1 with
  | nil => intro l2 note; simp [renderFields]
  | cons cv rest ih =>
      intro l2 note
      obtain ⟨cn, vv⟩ := cv
      simp only [List.cons_append, renderFields, ih]
      cases hw : (renderField cn vv note).err <;> simp [ih]

/-- C8.  A failure while rendering one field is caught: the warning built
from the field's display label is logged, the fields after it are still
rendered in column order (the run over `fs1 ++ bad :: fs2` is the run
over `fs1`, the bad field's partial output, then the run over `fs2`), and
`generate_docs` still returns the output location whenever the source has
rows. -/
theorem field_error_recovery_c8 :
    (∀ (fs1 : List (String × Value)) (cv : String × Value)
       (fs2 : List (String × Value)) (note₀ e : String),
      (renderField cv.1 cv.2 (renderFields fs1 note₀).note).err = some e →
      fieldWarning cv.1 e ∈ (renderFields (fs1 ++ cv :: fs2) note₀).warns ∧
      (renderFields (fs1 ++ cv :: fs2) note₀).entries =
        (renderFields fs1 note₀).entries ++
        ((renderField cv.1 cv.2 (renderFields fs1 note₀).note).entries ++
         (renderFields fs2
           (renderField cv.1 cv.2 (renderFields fs1 note₀).note).note).entries)) ∧
    (∀ (columns : List String) (data : List (List Value))
       (m : List (String × List String)) (fname : String) (ri : Nat)
       (tOk : Bool), data ≠ [] →
      (generate_docs columns data m fname ri tOk).result = some fname) := by
  constructor
  · intro fs1 cv fs2 note₀ e he
    obtain ⟨cn, vv⟩ := cv
    rw [renderFields_append]
    simp only [renderFields]
    rw [he]
    constructor
    · simp
    · simp
  · intro columns data m fname ri tOk hdata
    rw [generate_docs, if_neg (by simp [hdata])]

/-- Witness for C8: an "indemnity reserves:" value without the "HST"
token raises, is logged, and the following conclusion field still
renders. -/
theorem field_error_recovery_c8_witness :
    (renderField "Indemnity Reserves:" (Value.vstr "no token") "").err =
      some "list index out of range" ∧
    (fieldWarning "Indemnity Reserves:" "list index out of range" ∈
      (renderFields [("Indemnity Reserves:", Value.vstr "no token"),
        ("Conclusion", Value.vstr "done")] "").warns ∧
     (renderFields [("Indemnity Reserves:", Value.vstr "no token"),
        ("Conclusion", Value.vstr "done")] "").entries =
       (renderFields [] "").entries ++
       ((renderField "Indemnity Reserves:" (Value.vstr "no token")
           (renderFields [] "").note).entries ++
        (renderFields [("Conclusion", Value.vstr "done")]
          (renderField "Indemnity Reserves:" (Value.vstr "no token")
            (renderFields [] "").note).note).entries)) ∧
    (generate_docs ["A"] [[Value.vstr "x"]] [] "o.docx" 0 true).result =
      some "o.docx" :=
  ⟨by decide,
   field_error_recovery_c8.1 [] ("Indemnity Reserves:", Value.vstr "no token")
     [("Conclusion", Value.vstr "done")] "" "list index out of range"
     (by decide),
   field_error_recovery_c8.2 ["A"] [[Value.vstr "x"]] [] "o.docx" 0 true
     (by decide)⟩

-- -------------------- filename sanitization (C9, C10) --------------------

theorem stripL_ne_nil {l : List Char} {c : Char} (hm : c ∈ l)
    (hc : pyIsSpace c = false) : stripL l ≠ [] := by
  intro hnil
  have hall : ∀ x ∈ l, pyIsSpace x = true := by
    have h2 : List.rdropWhile pyIsSpace (l.dropWhile pyIsSpace) = [] := by
      rw [← stripL_eq]; exact hnil
    have hdrop := List.rdropWhile_eq_nil_iff.mp h2
    intro x hx
    have hx2 : x ∈ List.takeWhile pyIsSpace l ++ List.dropWhile pyIsSpace l := by
      rw [List.takeWhile_append_dropWhile]; exact hx
    rcases List.mem_append.mp hx2 with hx' | hx'
    · exact List.mem_takeWhile_imp hx'
    · exact hdrop x hx'
  rw [hall c hm] at hc
  cases hc

/-- C9.  Filename sanitization replaces every character that is neither
alphanumeric nor one of space/"."/"_"/"-" with "_" and trims surrounding
whitespace: "Claim #42/A" becomes "Claim _42_A", the result is non-empty
whenever the input has an alphanumeric character, and an empty result
falls back to the ordinal placeholder "claim_<index+1>". -/
theorem sanitize_name_c9 :
    sanitizeName "Claim #42/A" = "Claim _42_A" ∧
    (∀ s : String, (∃ c ∈ s.data, c.isAlphanum = true) →
      sanitizeName s ≠ "") ∧
    (∀ (claim : String) (i : Nat),
      safeName claim i =
        if sanitizeName claim = "" then "claim_" ++ toString (i + 1)
        else sanitizeName claim) := by
  refine ⟨by decide, ?_, fun claim i => rfl⟩
  intro s ⟨c, hm, hc⟩
  have hmap : c ∈ s.data.map (fun c =>
      if c.isAlphanum || c = ' ' || c = '.' || c = '_' || c = '-' then c
      else '_') := by
    refine List.mem_map.mpr ⟨c, hm, ?_⟩
    simp [hc]
  have hsp : pyIsSpace c = false := by
    by_contra hsp
    have hsp' : pyIsSpace c = true := by
      cases h' : pyIsSpace c
      · exact absurd h' hsp
      · rfl
    simp only [pyIsSpace, Bool.or_eq_true, decide_eq_true_eq] at hsp'
    rcases hsp' with ((((rfl | rfl) | rfl) | rfl) | rfl) | rfl <;>
      exact absurd hc (by decide)
  intro hempty
  have : stripL (s.data.map (fun c =>
      if c.isAlphanum || c = ' ' || c = '.' || c = '_' || c = '-' then c
      else '_')) = [] := by
    have := congrArg String.data hempty
    exact this
  exact stripL_ne_nil hmap hsp this

/-- Witness for C9's non-emptiness at the spec's example name. -/
theorem sanitize_name_c9_witness :
    (∃ c ∈ ("Claim #42/A").data, c.isAlphanum = true) ∧
    sanitizeName "Claim #42/A" ≠ "" :=
  ⟨by decide, sanitize_name_c9.2.1 "Claim #42/A" (by decide)⟩

/-- C10.  Sanitization is not injective and output paths depend only on
the sanitized name: the distinct case names "a/b" and "a_b" sanitize to
the same base, get the same output path, and after a multi-case run the
later case's document is the only file left at that path. -/
theorem filename_collision_c10 :
    "a/b" ≠ "a_b" ∧
    sanitizeName "a/b" = sanitizeName "a_b" ∧
    outputPathFor "outputs" "a/b" 0 = outputPathFor "outputs" "a_b" 1 ∧
    finalFiles "outputs" ["a/b", "a_b"] = [("outputs/a_b.docx", 1)] := by
  decide

end ReportGen
